import Mathlib

/-!
Verification development for the scenery mermaid flowchart demo.

The development shallowly embeds the edge-geometry and highlight engine:
`MermaidNode` attachment points, `MermaidDirectionalEdgeNode.updateArrow`
(cubic centerline, arrowhead, outline subpath assembly),
`getArrowShape` (label combination), the `updateHighlight` frame transform of
the entering/exiting accessibility controls, edge registration, and the
layout pass over all edges.

Coordinates are rational numbers: every claim checked here is about exact
linear arithmetic and structural assembly, not floating-point rounding.
-/

set_option autoImplicit false

namespace Mermaid

/-- 2D vector, modelling dot's `Vector2`. -/
structure Vector2 where
  x : ℚ
  y : ℚ
  deriving DecidableEq, Repr

/-- `Vector2.plus` from dot: componentwise addition. -/
def Vector2.plus (a b : Vector2) : Vector2 := ⟨a.x + b.x, a.y + b.y⟩

/-- `Vector2.minus` from dot: componentwise subtraction. -/
def Vector2.minus (a b : Vector2) : Vector2 := ⟨a.x - b.x, a.y - b.y⟩

/-- `Vector2.timesScalar` from dot. -/
def Vector2.timesScalar (v : Vector2) (s : ℚ) : Vector2 := ⟨v.x * s, v.y * s⟩

/-- `Vector2.perpendicular` from dot: `new Vector2( this.y, -this.x )`. -/
def Vector2.perpendicular (v : Vector2) : Vector2 := ⟨v.y, -v.x⟩

/-- `Vector2.ZERO` from dot. -/
def Vector2.ZERO : Vector2 := ⟨0, 0⟩

/-- Axis-aligned bounding box, modelling dot's `Bounds2`. -/
structure Bounds2 where
  minX : ℚ
  minY : ℚ
  maxX : ℚ
  maxY : ℚ
  deriving DecidableEq, Repr

def Bounds2.centerX (b : Bounds2) : ℚ := (b.minX + b.maxX) / 2

def Bounds2.centerY (b : Bounds2) : ℚ := (b.minY + b.maxY) / 2

/-- dot `Bounds2.centerTop`: center of the top edge. -/
def Bounds2.centerTop (b : Bounds2) : Vector2 := ⟨b.centerX, b.minY⟩

/-- dot `Bounds2.centerBottom`: center of the bottom edge. -/
def Bounds2.centerBottom (b : Bounds2) : Vector2 := ⟨b.centerX, b.maxY⟩

/-- dot `Bounds2.leftCenter`: center of the left edge. -/
def Bounds2.leftCenter (b : Bounds2) : Vector2 := ⟨b.minX, b.centerY⟩

/-- dot `Bounds2.rightCenter`: center of the right edge. -/
def Bounds2.rightCenter (b : Bounds2) : Vector2 := ⟨b.maxX, b.centerY⟩

/-- `MermaidNode.getTopAttachmentPoint`: `this.bounds.centerTop`.
A node is represented by its current bounding box. -/
def getTopAttachmentPoint (b : Bounds2) : Vector2 := b.centerTop

/-- `MermaidNode.getBottomAttachmentPoint`: `this.bounds.centerBottom`. -/
def getBottomAttachmentPoint (b : Bounds2) : Vector2 := b.centerBottom

/-- `MermaidNode.getLeftAttachmentPoint`: `this.bounds.leftCenter`. -/
def getLeftAttachmentPoint (b : Bounds2) : Vector2 := b.leftCenter

/-- `MermaidNode.getRightAttachmentPoint`: `this.bounds.rightCenter`. -/
def getRightAttachmentPoint (b : Bounds2) : Vector2 := b.rightCenter

/-- `MermaidDirectionalEdgeNode.getAttachmentPoint`, with the connection as a
raw string so the `default: throw` branch is observable. The thrown `Error`
is modelled as `Except.error` carrying the error message from the source. -/
def getAttachmentPoint (node : Bounds2) (connection : String) : Except String Vector2 :=
  if connection = "top" then Except.ok (getTopAttachmentPoint node)
  else if connection = "bottom" then Except.ok (getBottomAttachmentPoint node)
  else if connection = "left" then Except.ok (getLeftAttachmentPoint node)
  else if connection = "right" then Except.ok (getRightAttachmentPoint node)
  else Except.error ("Invalid connection type: " ++ connection)

/-- The `'top' | 'bottom' | 'left' | 'right'` connection union type. -/
inductive Side where
  | top
  | bottom
  | left
  | right
  deriving DecidableEq, Repr

/-- The union type rendered back to its string literal. -/
def Side.toConnectionString : Side → String
  | .top => "top"
  | .bottom => "bottom"
  | .left => "left"
  | .right => "right"

/-- `getAttachmentPoint` restricted to the four typed connections
(the switch never reaches its default branch for these). -/
def attachmentPoint (node : Bounds2) : Side → Vector2
  | .top => getTopAttachmentPoint node
  | .bottom => getBottomAttachmentPoint node
  | .left => getLeftAttachmentPoint node
  | .right => getRightAttachmentPoint node

/-- The `tangentMap` record literal in `updateArrow`. -/
def tangentMap : Side → Vector2
  | .top => ⟨0, -1⟩
  | .bottom => ⟨0, 1⟩
  | .left => ⟨-1, 0⟩
  | .right => ⟨1, 0⟩

/-- kite `Cubic`: a cubic Bezier segment given by its four control points
(`start`, `control1`, `control2`, `end` in kite; `end` is a Lean keyword). -/
structure Cubic where
  start : Vector2
  control1 : Vector2
  control2 : Vector2
  endPt : Vector2
  deriving DecidableEq, Repr

/-- kite `Cubic.positionAt`: Bernstein evaluation at parameter `t`. -/
def Cubic.positionAt (c : Cubic) (t : ℚ) : Vector2 :=
  let mt := 1 - t
  ⟨mt ^ 3 * c.start.x + 3 * mt ^ 2 * t * c.control1.x
      + 3 * mt * t ^ 2 * c.control2.x + t ^ 3 * c.endPt.x,
    mt ^ 3 * c.start.y + 3 * mt ^ 2 * t * c.control1.y
      + 3 * mt * t ^ 2 * c.control2.y + t ^ 3 * c.endPt.y⟩

/-- The local constant `arrowHeadLength = 15` of `updateArrow`. -/
def arrowHeadLength : ℚ := 15

/-- The local constant `arrowHeadWidth = 12` of `updateArrow`. -/
def arrowHeadWidth : ℚ := 12

/-- The local constant `lineWidth = 2` of `updateArrow`. -/
def lineWidth : ℚ := 2

/-- The inputs `updateArrow` reads: the two endpoint nodes' bounds, the two
typed connections, and the edge options stored on the instance. -/
structure EdgeParams where
  startBounds : Bounds2
  endBounds : Bounds2
  startConnection : Side
  endConnection : Side
  startOffset : Vector2
  endOffset : Vector2
  startTangentDistance : ℚ
  endTangentDistance : ℚ
  deriving DecidableEq, Repr

/-- All the geometric locals computed by `updateArrow` before the stroke
outline is assembled, with the source's variable names. -/
structure ArrowGeometry where
  startPoint : Vector2
  endPoint : Vector2
  startTangent : Vector2
  endTangent : Vector2
  bezierStartPoint : Vector2
  bezierEndPoint : Vector2
  bezierControlPoint1 : Vector2
  bezierControlPoint2 : Vector2
  arrowHeadLeft : Vector2
  arrowHeadRight : Vector2
  mainCubic : Cubic
  deriving DecidableEq, Repr

/-- The geometry part of `MermaidDirectionalEdgeNode.updateArrow`, line by
line from the source. -/
def updateArrowGeometry (e : EdgeParams) : ArrowGeometry :=
  let startPoint := (attachmentPoint e.startBounds e.startConnection).plus e.startOffset
  let endPoint := (attachmentPoint e.endBounds e.endConnection).plus e.endOffset
  let startTangent := tangentMap e.startConnection
  let endTangent := tangentMap e.endConnection
  let bezierStartPoint := startPoint
  let bezierEndPoint := endPoint.plus (endTangent.timesScalar arrowHeadLength)
  let bezierControlPoint1 := bezierStartPoint.plus (startTangent.timesScalar e.startTangentDistance)
  let bezierControlPoint2 := bezierEndPoint.plus (endTangent.timesScalar e.endTangentDistance)
  let arrowHeadLeft := bezierEndPoint.plus (endTangent.perpendicular.timesScalar (arrowHeadWidth / 2))
  let arrowHeadRight := bezierEndPoint.plus (endTangent.perpendicular.timesScalar (-arrowHeadWidth / 2))
  let mainCubic : Cubic := ⟨bezierStartPoint, bezierControlPoint1, bezierControlPoint2, bezierEndPoint⟩
  { startPoint := startPoint
    endPoint := endPoint
    startTangent := startTangent
    endTangent := endTangent
    bezierStartPoint := bezierStartPoint
    bezierEndPoint := bezierEndPoint
    bezierControlPoint1 := bezierControlPoint1
    bezierControlPoint2 := bezierControlPoint2
    arrowHeadLeft := arrowHeadLeft
    arrowHeadRight := arrowHeadRight
    mainCubic := mainCubic }

/-- C1: `updateArrow` builds the centerline cubic with
`curveStart = startAttachmentPoint + startOffset`,
`curveEnd = endAttachmentPoint + endOffset + endTangent * arrowheadLength`
(`arrowheadLength = 15`),
`control1 = curveStart + startTangent * startTangentDistance`,
`control2 = curveEnd + endTangent * endTangentDistance`, the side tangents are
top→(0,−1), bottom→(0,1), left→(−1,0), right→(1,0), and for an end side of
`top` (zero end offset) the extended curve end lies `arrowheadLength` above
the attachment point. -/
theorem updateArrow_cubic_construction (e : EdgeParams) :
    ((updateArrowGeometry e).mainCubic.start
        = (attachmentPoint e.startBounds e.startConnection).plus e.startOffset
      ∧ (updateArrowGeometry e).mainCubic.endPt
        = ((attachmentPoint e.endBounds e.endConnection).plus e.endOffset).plus
            ((tangentMap e.endConnection).timesScalar arrowHeadLength)
      ∧ (updateArrowGeometry e).mainCubic.control1
        = (updateArrowGeometry e).mainCubic.start.plus
            ((tangentMap e.startConnection).timesScalar e.startTangentDistance)
      ∧ (updateArrowGeometry e).mainCubic.control2
        = (updateArrowGeometry e).mainCubic.endPt.plus
            ((tangentMap e.endConnection).timesScalar e.endTangentDistance))
    ∧ arrowHeadLength = 15
    ∧ (tangentMap Side.top = ⟨0, -1⟩ ∧ tangentMap Side.bottom = ⟨0, 1⟩
        ∧ tangentMap Side.left = ⟨-1, 0⟩ ∧ tangentMap Side.right = ⟨1, 0⟩)
    ∧ (e.endConnection = Side.top → e.endOffset = Vector2.ZERO →
        (updateArrowGeometry e).mainCubic.endPt
          = ⟨(attachmentPoint e.endBounds Side.top).x,
              (attachmentPoint e.endBounds Side.top).y - arrowHeadLength⟩) := by
  refine ⟨⟨rfl, rfl, rfl, rfl⟩, rfl, ⟨rfl, rfl, rfl, rfl⟩, ?_⟩
  intro htop hoff
  simp only [updateArrowGeometry, htop, hoff]
  simp [Vector2.plus, Vector2.timesScalar, Vector2.ZERO, tangentMap, arrowHeadLength]
  ring

/-- Witness for C1 at a concrete edge: node boxes (0,0)–(100,40) and
(0,200)–(100,240), bottom→top connection, no offsets, tangent distances 50. -/
theorem updateArrow_cubic_construction_witness :
    (updateArrowGeometry ⟨⟨0, 0, 100, 40⟩, ⟨0, 200, 100, 240⟩, Side.bottom, Side.top,
        Vector2.ZERO, Vector2.ZERO, 50, 50⟩).mainCubic.endPt
      = ⟨(attachmentPoint ⟨0, 200, 100, 240⟩ Side.top).x,
          (attachmentPoint ⟨0, 200, 100, 240⟩ Side.top).y - arrowHeadLength⟩ :=
  (updateArrow_cubic_construction
    ⟨⟨0, 0, 100, 40⟩, ⟨0, 200, 100, 240⟩, Side.bottom, Side.top,
      Vector2.ZERO, Vector2.ZERO, 50, 50⟩).2.2.2 rfl rfl

/-- The true (un-extended) end point of an edge: `endPoint` in `updateArrow`,
i.e. the end attachment point plus the end offset. This is the arrow tip. -/
def trueEndPoint (e : EdgeParams) : Vector2 :=
  (attachmentPoint e.endBounds e.endConnection).plus e.endOffset

/-- A sample edge: boxes (0,0)–(100,40) and (0,200)–(100,240), connected
bottom→top with no offsets and tangent distances 50. -/
def sampleEdge : EdgeParams :=
  ⟨⟨0, 0, 100, 40⟩, ⟨0, 200, 100, 240⟩, Side.bottom, Side.top,
    Vector2.ZERO, Vector2.ZERO, 50, 50⟩

/-- C3 counterexample: on `sampleEdge` the wing points computed by
`updateArrow` do NOT equal the true (un-extended) end point ±
`perpendicular(endTangent) * (arrowheadWidth/2)`: the code offsets the wings
from `bezierEndPoint`, the extended curve end, so each wing sits
`arrowheadLength` away from where the claim places it. -/
theorem arrowhead_wings_not_at_true_end :
    (updateArrowGeometry sampleEdge).arrowHeadLeft
        ≠ (trueEndPoint sampleEdge).plus
            ((tangentMap sampleEdge.endConnection).perpendicular.timesScalar (arrowHeadWidth / 2))
      ∧ (updateArrowGeometry sampleEdge).arrowHeadRight
        ≠ (trueEndPoint sampleEdge).minus
            ((tangentMap sampleEdge.endConnection).perpendicular.timesScalar (arrowHeadWidth / 2)) := by
  refine ⟨?_, ?_⟩ <;>
    norm_num [updateArrowGeometry, sampleEdge, trueEndPoint, attachmentPoint,
      getTopAttachmentPoint, Bounds2.centerTop, Bounds2.centerX, tangentMap,
      Vector2.plus, Vector2.minus, Vector2.timesScalar, Vector2.perpendicular,
      arrowHeadLength, arrowHeadWidth, Vector2.ZERO, Vector2.mk.injEq]

/-- C3 amended: the two arrowhead wing points equal the EXTENDED curve end
point (`bezierEndPoint`, the true end point plus `endTangent * arrowheadLength`)
plus and minus `perpendicular(endTangent) * (arrowheadWidth/2)`, with
`arrowheadWidth = 12`. -/
theorem arrowhead_wings_at_extended_end (e : EdgeParams) :
    (updateArrowGeometry e).arrowHeadLeft
        = (updateArrowGeometry e).bezierEndPoint.plus
            ((tangentMap e.endConnection).perpendicular.timesScalar (arrowHeadWidth / 2))
      ∧ (updateArrowGeometry e).arrowHeadRight
        = (updateArrowGeometry e).bezierEndPoint.minus
            ((tangentMap e.endConnection).perpendicular.timesScalar (arrowHeadWidth / 2))
      ∧ (updateArrowGeometry e).bezierEndPoint
        = (trueEndPoint e).plus ((tangentMap e.endConnection).timesScalar arrowHeadLength)
      ∧ arrowHeadWidth = 12 := by
  refine ⟨rfl, ?_, rfl, rfl⟩
  simp only [updateArrowGeometry, Vector2.plus, Vector2.minus, Vector2.timesScalar]
  rw [Vector2.mk.injEq]
  constructor <;> ring

/-- A kite path segment as far as the outline assembly observes it: a
straight `KiteLine` between two points, or a piece of an offset (stroke
boundary) curve tracked by its endpoints. The numerical offsetting method of
kite's `strokeLeft`/`strokeRight` is external to this repository; the spec
only fixes its interface. -/
inductive Segment where
  | line (p0 p1 : Vector2)
  | offsetPiece (p0 p1 : Vector2)
  deriving DecidableEq, Repr

/-- The `start` point of a kite segment. -/
def Segment.startPt : Segment → Vector2
  | .line p _ => p
  | .offsetPiece p _ => p

/-- The `end` point of a kite segment. -/
def Segment.endPt : Segment → Vector2
  | .line _ q => q
  | .offsetPiece _ q => q

/-- Placeholder segment for out-of-range indexing (never reached under the
nonemptiness facts used below). -/
def defaultSegment : Segment := Segment.line Vector2.ZERO Vector2.ZERO

/-- Indexing a list at `length - 1` with a default is taking its last
element with that default. -/
theorem getD_length_sub_one {α : Type} (l : List α) (d : α) :
    l.getD (l.length - 1) d = l.getLastD d := by
  induction l with
  | nil => rfl
  | cons a as ih =>
    cases as with
    | nil => rfl
    | cons b bs =>
      simpa [List.getD, List.getLastD_cons] using ih

/-- Indexing a list at `0` with a default is taking its head with that
default. -/
theorem getD_zero_eq_headD {α : Type} (l : List α) (d : α) :
    l.getD 0 d = l.headD d := by
  cases l <;> rfl

/-- The subpath assembly of `MermaidDirectionalEdgeNode.updateArrow`: the
single `Subpath` passed to `new Shape`, with the code's exact index
expressions (`strokedLeft[ strokedLeft.length - 1 ].end`,
`strokedRight[ 0 ].start`, `strokedRight[ strokedLeft.length - 1 ].end`,
`strokedLeft[ 0 ].start`). The kite offset primitive is a parameter. -/
def updateArrowSubpath (e : EdgeParams)
    (strokeLeft strokeRight : Cubic → ℚ → List Segment) : List Segment :=
  let g := updateArrowGeometry e
  let strokedLeft := strokeLeft g.mainCubic lineWidth
  let strokedRight := strokeRight g.mainCubic lineWidth
  strokedLeft ++
    [Segment.line (strokedLeft.getD (strokedLeft.length - 1) defaultSegment).endPt g.arrowHeadLeft,
      Segment.line g.arrowHeadLeft g.endPoint,
      Segment.line g.endPoint g.arrowHeadRight,
      Segment.line g.arrowHeadRight (strokedRight.getD 0 defaultSegment).startPt] ++
    strokedRight ++
    [Segment.line (strokedRight.getD (strokedLeft.length - 1) defaultSegment).endPt
      (strokedLeft.getD 0 defaultSegment).startPt]

/-- Formalisation of the spec's words (not of the code): "Assemble one closed
contour: left boundary (start→near-end) → line to left wing → line to true
end point (the arrow tip) → line to right wing → line to right boundary's
matching end → right boundary traversed end→start → close." The two boundary
lists are supplied abstractly; "close" is the final line back to the left
boundary's start. -/
def specClosedContour (leftBoundary rightBoundary : List Segment)
    (leftWing tip rightWing : Vector2) : List Segment :=
  leftBoundary ++
    [Segment.line (leftBoundary.getLastD defaultSegment).endPt leftWing,
      Segment.line leftWing tip,
      Segment.line tip rightWing,
      Segment.line rightWing (rightBoundary.headD defaultSegment).startPt] ++
    rightBoundary ++
    [Segment.line (rightBoundary.getLastD defaultSegment).endPt
      (leftBoundary.headD defaultSegment).startPt]

/-- C2: the assembled outline is one single closed contour in the spec's
order, its tip vertex is `endAttachmentPoint + endOffset` (the two arrowhead
lines meet exactly there), and that tip is NOT the internally extended curve
endpoint (which always differs from it by `arrowheadLength` along the end
tangent). The kite stroke primitive is abstract; the hypothesis records that
it returns boundary lists of equal length (kite's `Cubic.strokeLeft` and
`Cubic.strokeRight` both return the same fixed number of offset pieces). -/
theorem updateArrow_outline_assembly (e : EdgeParams)
    (strokeLeft strokeRight : Cubic → ℚ → List Segment)
    (hlen : (strokeRight (updateArrowGeometry e).mainCubic lineWidth).length
        = (strokeLeft (updateArrowGeometry e).mainCubic lineWidth).length) :
    updateArrowSubpath e strokeLeft strokeRight
        = specClosedContour (strokeLeft (updateArrowGeometry e).mainCubic lineWidth)
            (strokeRight (updateArrowGeometry e).mainCubic lineWidth)
            (updateArrowGeometry e).arrowHeadLeft (trueEndPoint e)
            (updateArrowGeometry e).arrowHeadRight
      ∧ Segment.line (updateArrowGeometry e).arrowHeadLeft (trueEndPoint e)
          ∈ updateArrowSubpath e strokeLeft strokeRight
      ∧ Segment.line (trueEndPoint e) (updateArrowGeometry e).arrowHeadRight
          ∈ updateArrowSubpath e strokeLeft strokeRight
      ∧ trueEndPoint e ≠ (updateArrowGeometry e).bezierEndPoint := by
  have hR : (strokeRight (updateArrowGeometry e).mainCubic lineWidth).getD
        ((strokeLeft (updateArrowGeometry e).mainCubic lineWidth).length - 1) defaultSegment
      = (strokeRight (updateArrowGeometry e).mainCubic lineWidth).getLastD defaultSegment := by
    rw [← hlen, getD_length_sub_one]
  have hE : (updateArrowGeometry e).endPoint = trueEndPoint e := rfl
  refine ⟨?_, ?_, ?_, ?_⟩
  · simp only [updateArrowSubpath, specClosedContour, getD_length_sub_one, getD_zero_eq_headD,
      hR, hE]
  · simp [updateArrowSubpath, trueEndPoint, updateArrowGeometry]
  · simp [updateArrowSubpath, trueEndPoint, updateArrowGeometry]
  · cases h : e.endConnection <;>
      simp [updateArrowGeometry, trueEndPoint, tangentMap, h, Vector2.plus,
        Vector2.timesScalar, arrowHeadLength, Vector2.mk.injEq]

/-- A one-piece stand-in for the kite left-offset primitive, used only to
instantiate the abstract stroke parameter in witnesses. -/
def witnessStrokeLeft : Cubic → ℚ → List Segment :=
  fun c _ => [Segment.offsetPiece c.start c.endPt]

/-- A one-piece stand-in for the kite right-offset primitive (already
reversed, as kite's `strokeRight` is). -/
def witnessStrokeRight : Cubic → ℚ → List Segment :=
  fun c _ => [Segment.offsetPiece c.endPt c.start]

/-- Witness for C2 on `sampleEdge` with the one-piece stroke stand-ins. -/
theorem updateArrow_outline_assembly_witness :
    updateArrowSubpath sampleEdge witnessStrokeLeft witnessStrokeRight
        = specClosedContour
            (witnessStrokeLeft (updateArrowGeometry sampleEdge).mainCubic lineWidth)
            (witnessStrokeRight (updateArrowGeometry sampleEdge).mainCubic lineWidth)
            (updateArrowGeometry sampleEdge).arrowHeadLeft (trueEndPoint sampleEdge)
            (updateArrowGeometry sampleEdge).arrowHeadRight
      ∧ Segment.line (updateArrowGeometry sampleEdge).arrowHeadLeft (trueEndPoint sampleEdge)
          ∈ updateArrowSubpath sampleEdge witnessStrokeLeft witnessStrokeRight
      ∧ Segment.line (trueEndPoint sampleEdge) (updateArrowGeometry sampleEdge).arrowHeadRight
          ∈ updateArrowSubpath sampleEdge witnessStrokeLeft witnessStrokeRight
      ∧ trueEndPoint sampleEdge ≠ (updateArrowGeometry sampleEdge).bezierEndPoint :=
  updateArrow_outline_assembly sampleEdge witnessStrokeLeft witnessStrokeRight rfl

/-- The edge's combined shape as `getArrowShape` builds it, keeping the
external kite boolean primitive symbolic: `outline` is the arrow subpath
shape, `rect` the label panel's background rectangle (given by center and
half extents) after the panel's translation, and `union` is kite's
`shapeUnion`. -/
inductive EdgeShape where
  | outline (segs : List Segment)
  | rect (center : Vector2) (halfWidth halfHeight : ℚ)
  | union (a b : EdgeShape)
  deriving DecidableEq, Repr

/-- The edge's `textNode` (a sun `Panel`): its `_background` rectangle, held
by its center in panel-local coordinates and its half extents, and the
panel's current translation (`this.textNode.matrix`). -/
structure LabelPanel where
  localCenter : Vector2
  halfWidth : ℚ
  halfHeight : ℚ
  translation : Vector2
  deriving DecidableEq, Repr

/-- The panel's center in the edge's frame: the background rectangle's
center pushed through the panel's translation matrix. -/
def LabelPanel.center (p : LabelPanel) : Vector2 := p.localCenter.plus p.translation

/-- Scenery's `center` setter: translate the node so its center lands on the
given point. -/
def LabelPanel.setCenter (p : LabelPanel) (c : Vector2) : LabelPanel :=
  { p with translation := c.minus p.localCenter }

/-- `MermaidDirectionalEdgeNode.getArrowShape`: with a label,
`this.textNode._background.shape.transformed( this.textNode.matrix )
.shapeUnion( this.arrow.shape )`; without, `this.arrow.shape` unchanged. -/
def getArrowShape (arrowSegs : List Segment) (textNode : Option LabelPanel) : EdgeShape :=
  match textNode with
  | some panel =>
    EdgeShape.union (EdgeShape.rect panel.center panel.halfWidth panel.halfHeight)
      (EdgeShape.outline arrowSegs)
  | none => EdgeShape.outline arrowSegs

/-- The label step at the end of `updateArrow`:
`if ( this.textNode ) { this.textNode.center = mainCubic.positionAt( 0.5 ); }`. -/
def updateArrowLabel (e : EdgeParams) (textNode : Option LabelPanel) : Option LabelPanel :=
  textNode.map fun p => p.setCenter ((updateArrowGeometry e).mainCubic.positionAt (1 / 2))

/-- C5: with no label the combined shape is the outline unchanged; with a
label (after `updateArrow` has positioned it) the combined shape is the
planar union of the outline with the label panel rectangle, whose center is
the centerline cubic's point at parameter `t = 0.5`. -/
theorem getArrowShape_label_combination (e : EdgeParams) (segs : List Segment)
    (panel : LabelPanel) :
    getArrowShape segs none = EdgeShape.outline segs
      ∧ getArrowShape segs (updateArrowLabel e (some panel))
        = EdgeShape.union
            (EdgeShape.rect ((updateArrowGeometry e).mainCubic.positionAt (1 / 2))
              panel.halfWidth panel.halfHeight)
            (EdgeShape.outline segs) := by
  refine ⟨rfl, ?_⟩
  simp only [getArrowShape, updateArrowLabel, Option.map_some', LabelPanel.setCenter,
    LabelPanel.center, Vector2.plus, Vector2.minus, EdgeShape.union.injEq,
    EdgeShape.rect.injEq, Vector2.mk.injEq]
  refine ⟨⟨?_, trivial, trivial⟩, trivial⟩
  generalize (updateArrowGeometry e).mainCubic.positionAt (1 / 2) = v
  cases v
  rw [Vector2.mk.injEq]
  constructor <;> ring

/-- Affine 2D transform, the affine part of dot's `Matrix3`
(row-major entries `m00 m01 m02 / m10 m11 m12 / 0 0 1`). -/
structure Matrix3 where
  m00 : ℚ
  m01 : ℚ
  m02 : ℚ
  m10 : ℚ
  m11 : ℚ
  m12 : ℚ
  deriving DecidableEq, Repr

/-- dot `Matrix3.timesVector2`: apply the affine transform to a point. -/
def Matrix3.timesVector2 (m : Matrix3) (v : Vector2) : Vector2 :=
  ⟨m.m00 * v.x + m.m01 * v.y + m.m02, m.m10 * v.x + m.m11 * v.y + m.m12⟩

/-- Determinant of the linear part. -/
def Matrix3.det (m : Matrix3) : ℚ := m.m00 * m.m11 - m.m01 * m.m10

/-- dot `Matrix3.inverted` for an affine matrix. -/
def Matrix3.inverted (m : Matrix3) : Matrix3 :=
  ⟨m.m11 / m.det, -m.m01 / m.det, (m.m01 * m.m12 - m.m11 * m.m02) / m.det,
    -m.m10 / m.det, m.m00 / m.det, (m.m10 * m.m02 - m.m00 * m.m12) / m.det⟩

/-- kite `Shape.transformed`: every point of the shape pushed through the
matrix. A shape is observed as its list of points. -/
def shapeTransformed (shape : List Vector2) (m : Matrix3) : List Vector2 :=
  shape.map m.timesVector2

/-- Applying a matrix after its inverse is the identity when the matrix is
invertible. -/
theorem timesVector2_inverted (m : Matrix3) (hdet : m.det ≠ 0) (v : Vector2) :
    m.timesVector2 (m.inverted.timesVector2 v) = v := by
  rcases v with ⟨x, y⟩
  simp only [Matrix3.det] at hdet
  simp only [Matrix3.timesVector2, Matrix3.inverted, Matrix3.det]
  rw [Vector2.mk.injEq]
  constructor <;> field_simp <;> ring

/-- The shared body of `EnteringEdgeNode.updateHighlight` and
`ExitingEdgeNode.updateHighlight`:
`edgeShape.transformed( edge.getLocalToGlobalMatrix() )` followed by
`.transformed( this.getGlobalToLocalMatrix() )`; scenery's
`getGlobalToLocalMatrix` is the inverse of the control's own
`getLocalToGlobalMatrix`. The result is assigned to `this.focusHighlight`. -/
def updateHighlight (edgeShape : List Vector2)
    (edgeToGlobal controlToGlobal : Matrix3) : List Vector2 :=
  let globalShape := shapeTransformed edgeShape edgeToGlobal
  let localShape := shapeTransformed globalShape controlToGlobal.inverted
  localShape

/-- The three local-to-root transforms relevant to one edge: the edge's own,
the exiting control's (owned by the start node) and the entering control's
(owned by the end node). -/
structure EdgeFrames where
  edgeToGlobal : Matrix3
  exitingToGlobal : Matrix3
  enteringToGlobal : Matrix3
  deriving DecidableEq, Repr

/-- `ExitingEdgeNode.updateHighlight`, using the exiting control's frame. -/
def exitingUpdateHighlight (f : EdgeFrames) (edgeShape : List Vector2) : List Vector2 :=
  updateHighlight edgeShape f.edgeToGlobal f.exitingToGlobal

/-- `EnteringEdgeNode.updateHighlight`, using the entering control's frame. -/
def enteringUpdateHighlight (f : EdgeFrames) (edgeShape : List Vector2) : List Vector2 :=
  updateHighlight edgeShape f.edgeToGlobal f.enteringToGlobal

/-- C4: each control's highlight is the edge's combined shape transformed
first by the edge's local-to-root matrix and then by the inverse of that
control's own local-to-root matrix, independently for the exiting and the
entering control; consequently (when the control's frame is invertible)
pushing the highlight back through the control's frame reproduces exactly
the edge shape as seen at the root. -/
theorem updateHighlight_frame_transform (f : EdgeFrames) (edgeShape : List Vector2) :
    (exitingUpdateHighlight f edgeShape
        = shapeTransformed (shapeTransformed edgeShape f.edgeToGlobal) f.exitingToGlobal.inverted
      ∧ enteringUpdateHighlight f edgeShape
        = shapeTransformed (shapeTransformed edgeShape f.edgeToGlobal) f.enteringToGlobal.inverted)
      ∧ (f.exitingToGlobal.det ≠ 0 →
          shapeTransformed (exitingUpdateHighlight f edgeShape) f.exitingToGlobal
            = shapeTransformed edgeShape f.edgeToGlobal)
      ∧ (f.enteringToGlobal.det ≠ 0 →
          shapeTransformed (enteringUpdateHighlight f edgeShape) f.enteringToGlobal
            = shapeTransformed edgeShape f.edgeToGlobal) := by
  refine ⟨⟨rfl, rfl⟩, ?_, ?_⟩ <;> intro hdet <;>
    · simp only [exitingUpdateHighlight, enteringUpdateHighlight, updateHighlight,
        shapeTransformed, List.map_map]
      refine List.map_congr_left fun v _ => ?_
      simpa [Function.comp] using timesVector2_inverted _ hdet _

/-- Witness for C4: concrete invertible frames and a two-point shape. -/
theorem updateHighlight_frame_transform_witness :
    (EdgeFrames.mk ⟨1, 0, 5, 0, 1, 7⟩ ⟨2, 0, 0, 0, 2, 0⟩ ⟨1, 0, 3, 0, 1, 4⟩).exitingToGlobal.det ≠ 0
      ∧ shapeTransformed
          (exitingUpdateHighlight
            (EdgeFrames.mk ⟨1, 0, 5, 0, 1, 7⟩ ⟨2, 0, 0, 0, 2, 0⟩ ⟨1, 0, 3, 0, 1, 4⟩)
            [⟨1, 2⟩, ⟨3, 4⟩])
          (EdgeFrames.mk ⟨1, 0, 5, 0, 1, 7⟩ ⟨2, 0, 0, 0, 2, 0⟩ ⟨1, 0, 3, 0, 1, 4⟩).exitingToGlobal
        = shapeTransformed [⟨1, 2⟩, ⟨3, 4⟩]
            (EdgeFrames.mk ⟨1, 0, 5, 0, 1, 7⟩ ⟨2, 0, 0, 0, 2, 0⟩ ⟨1, 0, 3, 0, 1, 4⟩).edgeToGlobal :=
  ⟨by simp [Matrix3.det],
    (updateHighlight_frame_transform
      (EdgeFrames.mk ⟨1, 0, 5, 0, 1, 7⟩ ⟨2, 0, 0, 0, 2, 0⟩ ⟨1, 0, 3, 0, 1, 4⟩)
      [⟨1, 2⟩, ⟨3, 4⟩]).2.1 (by simp [Matrix3.det])⟩

/-- Midpoint of two points: the spec's "midpoint of the given side of the
node's bounding box", applied to the side's two corners. -/
def midpointV (p q : Vector2) : Vector2 := ⟨(p.x + q.x) / 2, (p.y + q.y) / 2⟩

/-- C6: `getAttachmentPoint` returns the midpoint of the given side of the
node's bounding box for each of the four recognized sides, and fails with
the invalid-connection error if and only if the side is any other value.
(The embedding is a pure function of its arguments, so determinism and
absence of side effects are inherent in the model.) -/
theorem getAttachmentPoint_spec (b : Bounds2) (connection : String) :
    (getAttachmentPoint b "top" = Except.ok (midpointV ⟨b.minX, b.minY⟩ ⟨b.maxX, b.minY⟩)
      ∧ getAttachmentPoint b "bottom" = Except.ok (midpointV ⟨b.minX, b.maxY⟩ ⟨b.maxX, b.maxY⟩)
      ∧ getAttachmentPoint b "left" = Except.ok (midpointV ⟨b.minX, b.minY⟩ ⟨b.minX, b.maxY⟩)
      ∧ getAttachmentPoint b "right" = Except.ok (midpointV ⟨b.maxX, b.minY⟩ ⟨b.maxX, b.maxY⟩))
      ∧ ((∃ v, getAttachmentPoint b connection = Except.ok v)
          ↔ (connection = "top" ∨ connection = "bottom" ∨ connection = "left"
              ∨ connection = "right"))
      ∧ (¬(connection = "top" ∨ connection = "bottom" ∨ connection = "left"
            ∨ connection = "right")
          → getAttachmentPoint b connection
            = Except.error ("Invalid connection type: " ++ connection)) := by
  refine ⟨⟨?_, ?_, ?_, ?_⟩, ⟨?_, ?_⟩, ?_⟩
  · simp [getAttachmentPoint, getTopAttachmentPoint, Bounds2.centerTop, Bounds2.centerX,
      midpointV, Vector2.mk.injEq]
  · simp [getAttachmentPoint, getBottomAttachmentPoint, Bounds2.centerBottom, Bounds2.centerX,
      midpointV, Vector2.mk.injEq]
  · simp [getAttachmentPoint, getLeftAttachmentPoint, Bounds2.leftCenter, Bounds2.centerY,
      midpointV, Vector2.mk.injEq]
  · simp [getAttachmentPoint, getRightAttachmentPoint, Bounds2.rightCenter, Bounds2.centerY,
      midpointV, Vector2.mk.injEq]
  · rintro ⟨v, hv⟩
    by_contra hno
    push_neg at hno
    obtain ⟨h1, h2, h3, h4⟩ := hno
    simp [getAttachmentPoint, h1, h2, h3, h4] at hv
  · rintro (h | h | h | h) <;> subst h <;> exact ⟨_, rfl⟩
  · intro hno
    push_neg at hno
    obtain ⟨h1, h2, h3, h4⟩ := hno
    simp [getAttachmentPoint, h1, h2, h3, h4]

/-- Witness for C6: the unrecognized connection "center" on a concrete box. -/
theorem getAttachmentPoint_spec_witness :
    ¬("center" = "top" ∨ "center" = "bottom" ∨ "center" = "left" ∨ "center" = "right")
      ∧ getAttachmentPoint ⟨0, 0, 100, 40⟩ "center"
        = Except.error ("Invalid connection type: " ++ "center") :=
  ⟨by decide, (getAttachmentPoint_spec ⟨0, 0, 100, 40⟩ "center").2.2 (by decide)⟩

/-- Edge parameters with raw string connections, as the fallible
`updateArrow` path observes them through `getAttachmentPoint`'s switch. -/
structure EdgeParamsStr where
  startBounds : Bounds2
  endBounds : Bounds2
  startConnection : String
  endConnection : String
  startOffset : Vector2
  endOffset : Vector2
  startTangentDistance : ℚ
  endTangentDistance : ℚ
  deriving DecidableEq, Repr

/-- The `tangentMap` record lookup on a connection string. For the four
recognized keys it agrees with `tangentMap`; `updateArrow` only reaches the
lookup after `getAttachmentPoint` has accepted both connections. -/
def tangentMapStr (connection : String) : Vector2 :=
  if connection = "top" then ⟨0, -1⟩
  else if connection = "bottom" then ⟨0, 1⟩
  else if connection = "left" then ⟨-1, 0⟩
  else ⟨1, 0⟩

/-- `updateArrow` as a fallible computation: the `Error` thrown by
`getAttachmentPoint` propagates as `Except.error`; on success the centerline
cubic is built exactly as in `updateArrowGeometry`. -/
def updateArrowE (e : EdgeParamsStr) : Except String Cubic := do
  let startAttachment ← getAttachmentPoint e.startBounds e.startConnection
  let endAttachment ← getAttachmentPoint e.endBounds e.endConnection
  let startPoint := startAttachment.plus e.startOffset
  let endPoint := endAttachment.plus e.endOffset
  let startTangent := tangentMapStr e.startConnection
  let endTangent := tangentMapStr e.endConnection
  let bezierStartPoint := startPoint
  let bezierEndPoint := endPoint.plus (endTangent.timesScalar arrowHeadLength)
  let bezierControlPoint1 := bezierStartPoint.plus (startTangent.timesScalar e.startTangentDistance)
  let bezierControlPoint2 := bezierEndPoint.plus (endTangent.timesScalar e.endTangentDistance)
  return ⟨bezierStartPoint, bezierControlPoint1, bezierControlPoint2, bezierEndPoint⟩

/-- The edge loop of the `layoutBoundsProperty.link` listener:
`for ( const edge of edges ) { edge.updateArrow(); }`, with one shape slot
per edge (`some` once recomputed). There is no try/catch: a thrown error
stops the loop at once, leaves the failing edge's slot and every later slot
as they were, and propagates out of the listener. -/
def layoutPassRun : List EdgeParamsStr → List (Option Cubic) → List (Option Cubic) × Option String
  | [], old => (old, none)
  | e :: es, old =>
    match updateArrowE e with
    | .error msg => (old, some msg)
    | .ok c =>
      let r := layoutPassRun es old.tail
      (some c :: r.1, r.2)

/-- A well-formed edge with string connections: boxes (0,0)–(100,40) and
(0,200)–(100,240), bottom→top. -/
def goodEdgeStr : EdgeParamsStr :=
  ⟨⟨0, 0, 100, 40⟩, ⟨0, 200, 100, 240⟩, "bottom", "top", Vector2.ZERO, Vector2.ZERO, 50, 50⟩

/-- The same edge with the unrecognized start connection "center", which
makes `updateArrow` throw. -/
def badEdgeStr : EdgeParamsStr :=
  ⟨⟨0, 0, 100, 40⟩, ⟨0, 200, 100, 240⟩, "center", "top", Vector2.ZERO, Vector2.ZERO, 50, 50⟩

/-- C7 counterexample: with a failing edge first in the list, a later edge
whose own computation succeeds is nevertheless NOT recomputed — its slot is
still empty after the pass — so a single failure does abort the rest of the
layout pass, contrary to the claim. -/
theorem layout_pass_abort_counterexample :
    (updateArrowE goodEdgeStr).isOk = true
      ∧ layoutPassRun [badEdgeStr, goodEdgeStr] [none, none]
        = ([none, none], some ("Invalid connection type: " ++ "center")) :=
  ⟨rfl, rfl⟩

/-- Taking the tail and then dropping `n` is dropping `n + 1`. -/
theorem tail_drop_eq_drop_succ {α : Type} (l : List α) (n : Nat) :
    l.tail.drop n = l.drop (n + 1) := by
  rw [← List.drop_one, List.drop_drop, Nat.add_comm]

/-- C7 amended: a failure in a single edge's geometry computation aborts the
remainder of the layout pass: the edges before the failing one (in iteration
order) have their shapes recomputed, the failing edge and every edge after
it keep their previous shapes, and the error propagates out of the pass
(there is no per-edge isolation; the highlight loop after it is never
reached). -/
theorem layout_pass_failure_aborts_rest (good : List EdgeParamsStr) (bad : EdgeParamsStr)
    (post : List EdgeParamsStr) (old : List (Option Cubic)) (msg : String)
    (hgood : ∀ e ∈ good, (updateArrowE e).isOk = true)
    (hbad : updateArrowE bad = Except.error msg) :
    layoutPassRun (good ++ bad :: post) old
      = ((good.map fun e => (updateArrowE e).toOption) ++ old.drop good.length, some msg) := by
  induction good generalizing old with
  | nil => simp [layoutPassRun, hbad]
  | cons e es ih =>
    have he := hgood e (by simp)
    obtain ⟨c, hc⟩ : ∃ c, updateArrowE e = Except.ok c := by
      cases h : updateArrowE e with
      | ok c => exact ⟨c, rfl⟩
      | error err => rw [h] at he; simp [Except.isOk, Except.toBool] at he
    have hes : ∀ x ∈ es, (updateArrowE x).isOk = true := fun x hx => hgood x (by simp [hx])
    simp only [List.cons_append, layoutPassRun, hc, List.append_eq]
    rw [ih old.tail hes]
    simp [hc, Except.toOption, tail_drop_eq_drop_succ]

/-- Witness for C7's amended statement: one good edge, then the failing
edge, then another good edge; only the first slot is recomputed. -/
theorem layout_pass_failure_aborts_rest_witness :
    layoutPassRun ([goodEdgeStr] ++ badEdgeStr :: [goodEdgeStr]) [none, none, none]
      = (([goodEdgeStr].map fun e => (updateArrowE e).toOption)
          ++ [none, none, none].drop [goodEdgeStr].length,
          some ("Invalid connection type: " ++ "center")) :=
  layout_pass_failure_aborts_rest [goodEdgeStr] badEdgeStr [goodEdgeStr] [none, none, none]
    ("Invalid connection type: " ++ "center")
    (by intro e he; rw [List.mem_singleton] at he; subst he; rfl) rfl

/-- One `EnteringEdgeNode` / `ExitingEdgeNode` accessibility control as far
as registration observes it: the edge it belongs to and the node its click
handler moves focus to. -/
structure EdgeControl where
  edgeId : Nat
  focusTargetId : Nat
  deriving DecidableEq, Repr

/-- Per-`MermaidNode` registration state: the node's text, its
`enteringEdgeNodes` / `exitingEdgeNodes` arrays (the containers' children
are appended in lockstep with these arrays, so the array length tracks the
container's `children.length`), and each container's accessible heading and
tag. -/
structure MermaidNodeState where
  text : String
  enteringEdgeNodes : List EdgeControl
  exitingEdgeNodes : List EdgeControl
  enteringHeading : Option String
  exitingHeading : Option String
  enteringTag : Option String
  exitingTag : Option String
  deriving DecidableEq, Repr

/-- An edge as the registration code sees it: its identity and the node ids
(handles) of its two endpoints. -/
structure EdgeRecord where
  edgeId : Nat
  startId : Nat
  endId : Nat
  deriving DecidableEq, Repr

/-- `MermaidNode.registerEnteringEdge`: on the first registration (empty
container) set the container's accessible heading
(`'Edges entering ' + this.text`) and its `ul` tag; then create an
`EnteringEdgeNode` — whose click handler calls `edge.startNode.focus()` —
and append it. -/
def registerEnteringEdge (n : MermaidNodeState) (edge : EdgeRecord) : MermaidNodeState :=
  let n :=
    if n.enteringEdgeNodes.length = 0 then
      { n with enteringHeading := some ("Edges entering " ++ n.text), enteringTag := some "ul" }
    else n
  { n with enteringEdgeNodes := n.enteringEdgeNodes ++ [⟨edge.edgeId, edge.startId⟩] }

/-- `MermaidNode.registerExitingEdge`: likewise for the exiting container
(`'Edges exiting ' + this.text`); the created `ExitingEdgeNode`'s click
handler calls `edge.endNode.focus()`. -/
def registerExitingEdge (n : MermaidNodeState) (edge : EdgeRecord) : MermaidNodeState :=
  let n :=
    if n.exitingEdgeNodes.length = 0 then
      { n with exitingHeading := some ("Edges exiting " ++ n.text), exitingTag := some "ul" }
    else n
  { n with exitingEdgeNodes := n.exitingEdgeNodes ++ [⟨edge.edgeId, edge.endId⟩] }

/-- Update the element at an index of a list, if present. -/
def modifyAt {α : Type} (l : List α) (i : Nat) (f : α → α) : List α :=
  match l[i]? with
  | some a => l.set i (f a)
  | none => l

/-- `modifyAt` at the modified index. -/
theorem modifyAt_self {α : Type} (l : List α) (i : Nat) (f : α → α) (a : α)
    (h : l[i]? = some a) : (modifyAt l i f)[i]? = some (f a) := by
  have hi : i < l.length := by
    by_contra hlt
    rw [List.getElem?_eq_none (Nat.le_of_not_lt hlt)] at h
    exact Option.noConfusion h
  simp [modifyAt, h, List.getElem?_set_eq_of_lt, hi]

/-- `modifyAt` leaves every other index unchanged. -/
theorem modifyAt_other {α : Type} (l : List α) (i j : Nat) (f : α → α)
    (hij : i ≠ j) : (modifyAt l i f)[j]? = l[j]? := by
  unfold modifyAt
  cases h : l[i]? with
  | none => rfl
  | some a => simp [List.getElem?_set_ne hij]

/-- The registration tail of `MermaidDirectionalEdgeNode`'s constructor:
`this.startNode.registerExitingEdge( this );
this.endNode.registerEnteringEdge( this );`, over a graph held as a list of
node states indexed by node id. -/
def constructEdge (nodes : List MermaidNodeState) (edge : EdgeRecord) : List MermaidNodeState :=
  let nodes := modifyAt nodes edge.startId (fun n => registerExitingEdge n edge)
  modifyAt nodes edge.endId (fun n => registerEnteringEdge n edge)

/-- `registerExitingEdge` appends exactly the one new exiting control (with
activation target the edge's end node) and never touches the entering
array. -/
theorem registerExitingEdge_controls (n : MermaidNodeState) (edge : EdgeRecord) :
    (registerExitingEdge n edge).exitingEdgeNodes
        = n.exitingEdgeNodes ++ [⟨edge.edgeId, edge.endId⟩]
      ∧ (registerExitingEdge n edge).enteringEdgeNodes = n.enteringEdgeNodes := by
  unfold registerExitingEdge
  split <;> exact ⟨rfl, rfl⟩

/-- `registerEnteringEdge` appends exactly the one new entering control
(with activation target the edge's start node) and never touches the
exiting array. -/
theorem registerEnteringEdge_controls (n : MermaidNodeState) (edge : EdgeRecord) :
    (registerEnteringEdge n edge).enteringEdgeNodes
        = n.enteringEdgeNodes ++ [⟨edge.edgeId, edge.startId⟩]
      ∧ (registerEnteringEdge n edge).exitingEdgeNodes = n.exitingEdgeNodes := by
  unfold registerEnteringEdge
  split <;> exact ⟨rfl, rfl⟩

/-- C8: constructing an edge registers, at construction time, exactly one
exiting control with the start node — its activation focuses the end node —
and exactly one entering control with the end node — its activation focuses
the start node — and changes no other node. -/
theorem constructEdge_registers_controls (nodes : List MermaidNodeState) (edge : EdgeRecord)
    (ns ne : MermaidNodeState)
    (hne : edge.startId ≠ edge.endId)
    (hs : nodes[edge.startId]? = some ns)
    (he : nodes[edge.endId]? = some ne) :
    (∃ ns2, (constructEdge nodes edge)[edge.startId]? = some ns2
        ∧ ns2.exitingEdgeNodes = ns.exitingEdgeNodes ++ [⟨edge.edgeId, edge.endId⟩]
        ∧ ns2.enteringEdgeNodes = ns.enteringEdgeNodes)
      ∧ (∃ ne2, (constructEdge nodes edge)[edge.endId]? = some ne2
          ∧ ne2.enteringEdgeNodes = ne.enteringEdgeNodes ++ [⟨edge.edgeId, edge.startId⟩]
          ∧ ne2.exitingEdgeNodes = ne.exitingEdgeNodes)
      ∧ (∀ j, j ≠ edge.startId → j ≠ edge.endId →
          (constructEdge nodes edge)[j]? = nodes[j]?) := by
  refine ⟨⟨registerExitingEdge ns edge, ?_, (registerExitingEdge_controls ns edge).1,
      (registerExitingEdge_controls ns edge).2⟩,
    ⟨registerEnteringEdge ne edge, ?_, (registerEnteringEdge_controls ne edge).1,
      (registerEnteringEdge_controls ne edge).2⟩, ?_⟩
  · unfold constructEdge
    rw [modifyAt_other _ _ _ _ (fun h => hne h.symm)]
    exact modifyAt_self nodes edge.startId _ ns hs
  · unfold constructEdge
    refine modifyAt_self _ edge.endId _ ne ?_
    rw [modifyAt_other _ _ _ _ hne]
    exact he
  · intro j hjs hje
    unfold constructEdge
    rw [modifyAt_other _ _ _ _ (fun h => hje h.symm),
      modifyAt_other _ _ _ _ (fun h => hjs h.symm)]

/-- A fresh node state as the `MermaidNode` constructor leaves it. -/
def nodeA : MermaidNodeState := ⟨"Does it work?", [], [], none, none, none, none⟩

/-- A second fresh node state. -/
def nodeB : MermaidNodeState := ⟨"Dont mess with it", [], [], none, none, none, none⟩

/-- Witness for C8: edge 0 from node 0 to node 1 in a two-node graph. -/
theorem constructEdge_registers_controls_witness :
    ∃ ns2, (constructEdge [nodeA, nodeB] ⟨0, 0, 1⟩)[(⟨0, 0, 1⟩ : EdgeRecord).startId]? = some ns2
      ∧ ns2.exitingEdgeNodes = nodeA.exitingEdgeNodes
          ++ [⟨(⟨0, 0, 1⟩ : EdgeRecord).edgeId, (⟨0, 0, 1⟩ : EdgeRecord).endId⟩]
      ∧ ns2.enteringEdgeNodes = nodeA.enteringEdgeNodes :=
  (constructEdge_registers_controls [nodeA, nodeB] ⟨0, 0, 1⟩ nodeA nodeB
    (by decide) rfl rfl).1

/-- C10: a container's accessible heading and its `ul` list tag are set
exactly at the first registration of that direction (when the container is
still empty); any further registration of the same direction leaves heading
and tag unchanged, and every registration appends a control, so the
container never becomes empty again. -/
theorem register_heading_set_once (n : MermaidNodeState) (edge : EdgeRecord) :
    (n.enteringEdgeNodes = [] →
        (registerEnteringEdge n edge).enteringHeading = some ("Edges entering " ++ n.text)
          ∧ (registerEnteringEdge n edge).enteringTag = some "ul")
      ∧ (n.enteringEdgeNodes ≠ [] →
          (registerEnteringEdge n edge).enteringHeading = n.enteringHeading
            ∧ (registerEnteringEdge n edge).enteringTag = n.enteringTag)
      ∧ (registerEnteringEdge n edge).enteringEdgeNodes ≠ []
      ∧ (n.exitingEdgeNodes = [] →
          (registerExitingEdge n edge).exitingHeading = some ("Edges exiting " ++ n.text)
            ∧ (registerExitingEdge n edge).exitingTag = some "ul")
      ∧ (n.exitingEdgeNodes ≠ [] →
          (registerExitingEdge n edge).exitingHeading = n.exitingHeading
            ∧ (registerExitingEdge n edge).exitingTag = n.exitingTag)
      ∧ (registerExitingEdge n edge).exitingEdgeNodes ≠ [] := by
  refine ⟨?_, ?_, ?_, ?_, ?_, ?_⟩
  · intro h
    simp [registerEnteringEdge, h]
  · intro h
    rw [← List.length_pos] at h
    simp [registerEnteringEdge, Nat.ne_of_gt h]
  · simp [registerEnteringEdge]
  · intro h
    simp [registerExitingEdge, h]
  · intro h
    rw [← List.length_pos] at h
    simp [registerExitingEdge, Nat.ne_of_gt h]
  · simp [registerExitingEdge]

/-- Witness for C10: the first entering registration on a fresh node sets
the heading and list tag. -/
theorem register_heading_set_once_witness :
    (registerEnteringEdge nodeA ⟨0, 0, 1⟩).enteringHeading
        = some ("Edges entering " ++ nodeA.text)
      ∧ (registerEnteringEdge nodeA ⟨0, 0, 1⟩).enteringTag = some "ul" :=
  (register_heading_set_once nodeA ⟨0, 0, 1⟩).1 rfl

/-- The `MermaidDirectionalEdgeNodeSelfOptions` object of a constructor
call: each field is `none` when the caller did not provide it; the
(nullable) `text` option is `Option (Option String)`, outer `none` meaning
"not provided". -/
structure MermaidDirectionalEdgeNodeSelfOptions where
  text : Option (Option String)
  startOffset : Option Vector2
  endOffset : Option Vector2
  startTangentDistance : Option ℚ
  endTangentDistance : Option ℚ
  deriving DecidableEq, Repr

/-- The options after `optionize3` has merged them over the defaults. -/
structure ResolvedEdgeOptions where
  text : Option String
  startOffset : Vector2
  endOffset : Vector2
  startTangentDistance : ℚ
  endTangentDistance : ℚ
  deriving DecidableEq, Repr

/-- `optionize3( {}, MERMAID_DIRECTIONAL_EDGE_DEFAULT_OPTIONS,
providedOptions )`: each provided field wins; a missing field falls back to
the default object
(`text: null, startOffset: Vector2.ZERO, endOffset: Vector2.ZERO,
startTangentDistance: 50, endTangentDistance: 50`). -/
def optionize3Edge (provided : MermaidDirectionalEdgeNodeSelfOptions) : ResolvedEdgeOptions :=
  { text := provided.text.getD none
    startOffset := provided.startOffset.getD Vector2.ZERO
    endOffset := provided.endOffset.getD Vector2.ZERO
    startTangentDistance := provided.startTangentDistance.getD 50
    endTangentDistance := provided.endTangentDistance.getD 50 }

/-- The `EdgeParams` that an edge constructed with the given resolved
options hands to `updateArrow` once the node bounds are known. -/
def mkEdgeParams (startBounds endBounds : Bounds2) (startConnection endConnection : Side)
    (o : ResolvedEdgeOptions) : EdgeParams :=
  ⟨startBounds, endBounds, startConnection, endConnection, o.startOffset, o.endOffset,
    o.startTangentDistance, o.endTangentDistance⟩

/-- C9: an edge created without `startOffset` or `endOffset` defaults both
offsets to the zero vector (and each missing tangent distance to 50), so
its curve start point is exactly the start attachment point and its true
arrow tip is exactly the end attachment point. -/
theorem default_offsets_zero (provided : MermaidDirectionalEdgeNodeSelfOptions)
    (sb eb : Bounds2) (sc ec : Side)
    (hso : provided.startOffset = none) (heo : provided.endOffset = none) :
    (optionize3Edge provided).startOffset = Vector2.ZERO
      ∧ (optionize3Edge provided).endOffset = Vector2.ZERO
      ∧ (provided.startTangentDistance = none →
          (optionize3Edge provided).startTangentDistance = 50)
      ∧ (provided.endTangentDistance = none →
          (optionize3Edge provided).endTangentDistance = 50)
      ∧ (updateArrowGeometry (mkEdgeParams sb eb sc ec (optionize3Edge provided))).bezierStartPoint
        = attachmentPoint sb sc
      ∧ trueEndPoint (mkEdgeParams sb eb sc ec (optionize3Edge provided))
        = attachmentPoint eb ec := by
  refine ⟨by simp [optionize3Edge, hso], by simp [optionize3Edge, heo],
    fun h => by simp [optionize3Edge, h], fun h => by simp [optionize3Edge, h], ?_, ?_⟩
  · show (attachmentPoint sb sc).plus (optionize3Edge provided).startOffset = attachmentPoint sb sc
    rw [show (optionize3Edge provided).startOffset = Vector2.ZERO by simp [optionize3Edge, hso]]
    generalize attachmentPoint sb sc = v
    cases v
    simp [Vector2.plus, Vector2.ZERO]
  · show (attachmentPoint eb ec).plus (optionize3Edge provided).endOffset = attachmentPoint eb ec
    rw [show (optionize3Edge provided).endOffset = Vector2.ZERO by simp [optionize3Edge, heo]]
    generalize attachmentPoint eb ec = v
    cases v
    simp [Vector2.plus, Vector2.ZERO]

/-- Witness for C9: all options left unprovided on the two sample boxes. -/
theorem default_offsets_zero_witness :
    trueEndPoint (mkEdgeParams ⟨0, 0, 100, 40⟩ ⟨0, 200, 100, 240⟩ Side.bottom Side.top
        (optionize3Edge ⟨none, none, none, none, none⟩))
      = attachmentPoint ⟨0, 200, 100, 240⟩ Side.top :=
  (default_offsets_zero ⟨none, none, none, none, none⟩ ⟨0, 0, 100, 40⟩ ⟨0, 200, 100, 240⟩
    Side.bottom Side.top rfl rfl).2.2.2.2.2

end Mermaid
